import Mathlib

/-!
Verification of the ThothNamer name-service contract
(`src/hathor/nanocontracts/blueprints/thoth_namer.py`).

The contract state and every public mutation operation are embedded as
executable Lean definitions, translated line by line from the Python
source.  Addresses are opaque identities (modelled as `Nat`), token
identifiers are byte strings (modelled as `List Nat`), and Python's
unbounded integers become `Int`.  Each operation receives the call
context and the current state and returns either the successor state or
the error it raises, together with the state at the moment of the raise
(so that absence of partial writes is a theorem, not an assumption).
-/

namespace ThothNamer

/-- Caller / owner / resolving identities are opaque; only equality is used. -/
abbrev Address := Nat

/-- Python `Amount` is an unbounded integer. -/
abbrev Amount := Int

/-- Direction of a value-transfer action (`NCActionType`). -/
inductive NCActionType where
  | deposit
  | withdrawal
deriving DecidableEq

/-- A value-transfer action attached to a call (`NCAction`). -/
structure NCAction where
  type : NCActionType
  token_uid : List Nat
  amount : Amount
deriving DecidableEq

/-- The relevant parts of the host-supplied call context (`Context`):
caller address, attached actions, and a timestamp (unused by the logic). -/
structure Context where
  address : Address
  actions : List NCAction
  timestamp : Nat
deriving DecidableEq

/-- A Name Record: the per-name dict
`\x7b"owner_address": ..., "resolving_address": ...\x7d` of the source. -/
structure NameRecord where
  owner_address : Address
  resolving_address : Address
deriving DecidableEq

/-- Lookup in the `names` dict (Python `self.names[name]` / `name in self.names`). -/
def dictGet : List (String × NameRecord) → String → Option NameRecord
  | [], _ => none
  | (k, v) :: rest, name => if k = name then some v else dictGet rest name

/-- Assignment `self.names[name] = record`: overwrite in place, or append. -/
def dictSet : List (String × NameRecord) → String → NameRecord → List (String × NameRecord)
  | [], name, record => [(name, record)]
  | (k, v) :: rest, name, record =>
      if k = name then (name, record) :: rest else (k, v) :: dictSet rest name record

/-- Persisted contract state: the five storage fields of `ThothNamer`. -/
structure State where
  domain : String
  names : List (String × NameRecord)
  dev_address : Address
  fee : Amount
  total_fee : Amount
deriving DecidableEq

/-- The error classes raised by the blueprint (all subclasses of `NCFail`). -/
inductive NCErr where
  | NameNotFound
  | NameAlreadyExists
  | NotAuthorized
  | InvalidNameFormat
  | WithdrawalNotAllowed
  | DepositNotAllowed
  | InsufficientBalance
  | InvalidFee
  | InvalidDomain
  | TooManyActions
  | InvalidToken
deriving DecidableEq

/-- Outcome of a public mutation call: the successor state, or the raised
error together with the state at the moment of the raise. -/
inductive NCResult where
  | ok (s : State)
  | fail (e : NCErr) (s : State)
deriving DecidableEq

/-- The byte string `b'00'` that `_get_action` compares `token_uid` against
(two ASCII `'0'` bytes, the reserved no-token marker). -/
def NO_TOKEN : List Nat := [48, 48]

/-- The character set `"abcdefghijklmnopqrstuvwxyz0123456789-"` of `validate_name`. -/
def allowedChars : List Char := "abcdefghijklmnopqrstuvwxyz0123456789-".toList

/-- `validate_name` from the source: length 3..32, characters from
`allowedChars`, no leading or trailing hyphen. -/
def validate_name (name : String) : Bool :=
  if name.length = 0 then false
  else if name.length < 3 ∨ 32 < name.length then false
  else if ¬ (name.toList.all fun c => allowedChars.contains c) then false
  else if name.toList.head? = some '-' ∨ name.toList.getLast? = some '-' then false
  else true

/-- `check_name_existence` from the source: `name in self.names`. -/
def check_name_existence (s : State) (name : String) : Bool :=
  (dictGet s.names name).isSome

/-- `_get_action` from the source: admit exactly one action, forbid
withdrawals by non-developers, reject the reserved `b'00'` token marker. -/
def _get_action (ctx : Context) (s : State) : Except NCErr NCAction :=
  match ctx.actions with
  | [action] =>
      if ctx.address ≠ s.dev_address ∧ action.type = NCActionType.withdrawal then
        Except.error NCErr.WithdrawalNotAllowed
      else if action.token_uid = NO_TOKEN then
        Except.error NCErr.InvalidToken
      else
        Except.ok action
  | _ => Except.error NCErr.TooManyActions

/-- `initialize` from the source (renamed `init` here): reject an empty
domain or a non-positive fee, then set all four scalar fields. -/
def init (ctx : Context) (domain : String) (fee : Amount) (s : State) : NCResult :=
  if domain.length = 0 then NCResult.fail NCErr.InvalidDomain s
  else if fee ≤ 0 then NCResult.fail NCErr.InvalidFee s
  else NCResult.ok { s with
    domain := domain
    fee := fee
    total_fee := 0
    dev_address := ctx.address }

/-- `create_name` from the source. -/
def create_name (ctx : Context) (name : String) (s : State) : NCResult :=
  if ¬ validate_name name then NCResult.fail NCErr.InvalidNameFormat s
  else if check_name_existence s name then NCResult.fail NCErr.NameAlreadyExists s
  else
    match _get_action ctx s with
    | Except.error e => NCResult.fail e s
    | Except.ok action =>
        if action.amount < s.fee then NCResult.fail NCErr.InsufficientBalance s
        else NCResult.ok { s with
          names := dictSet s.names name
            { owner_address := ctx.address, resolving_address := ctx.address }
          total_fee := s.total_fee + s.fee }

/-- `change_fee` from the source. -/
def change_fee (ctx : Context) (fee : Amount) (s : State) : NCResult :=
  if ctx.address ≠ s.dev_address then NCResult.fail NCErr.NotAuthorized s
  else if fee ≤ 0 then NCResult.fail NCErr.InvalidFee s
  else NCResult.ok { s with fee := fee }

/-- `change_dev_address` from the source. -/
def change_dev_address (ctx : Context) (new_dev_address : Address) (s : State) : NCResult :=
  if ctx.address ≠ s.dev_address then NCResult.fail NCErr.NotAuthorized s
  else NCResult.ok { s with dev_address := new_dev_address }

/-- `_update_owner_address` from the source: copy the record with a new
`owner_address`, keeping `resolving_address`. -/
def _update_owner_address (temp : NameRecord) (new_owner_address : Address) : NameRecord :=
  { temp with owner_address := new_owner_address }

/-- `_update_resolving_address` from the source: copy the record with a new
`resolving_address`, keeping `owner_address`. -/
def _update_resolving_address (temp : NameRecord) (new_resolving_address : Address) : NameRecord :=
  { temp with resolving_address := new_resolving_address }

/-- `change_name_owner` from the source.  The existence check and the
subsequent dict accesses are collapsed into one lookup. -/
def change_name_owner (ctx : Context) (name : String) (new_owner_address : Address)
    (s : State) : NCResult :=
  match dictGet s.names name with
  | none => NCResult.fail NCErr.NameNotFound s
  | some record =>
      if record.owner_address ≠ ctx.address then NCResult.fail NCErr.NotAuthorized s
      else NCResult.ok { s with
        names := dictSet s.names name (_update_owner_address record new_owner_address) }

/-- `change_resolving_address` from the source. -/
def change_resolving_address (ctx : Context) (name : String) (new_resolving_address : Address)
    (s : State) : NCResult :=
  match dictGet s.names name with
  | none => NCResult.fail NCErr.NameNotFound s
  | some record =>
      if record.owner_address ≠ ctx.address then NCResult.fail NCErr.NotAuthorized s
      else NCResult.ok { s with
        names := dictSet s.names name (_update_resolving_address record new_resolving_address) }

/-- One public mutation call with its arguments. -/
inductive Op where
  | init (ctx : Context) (domain : String) (fee : Amount)
  | create_name (ctx : Context) (name : String)
  | change_fee (ctx : Context) (fee : Amount)
  | change_dev_address (ctx : Context) (a : Address)
  | change_name_owner (ctx : Context) (name : String) (a : Address)
  | change_resolving_address (ctx : Context) (name : String) (a : Address)
deriving DecidableEq

/-- Dispatch a call to the corresponding operation. -/
def step : Op → State → NCResult
  | Op.init ctx d f, s => init ctx d f s
  | Op.create_name ctx n, s => create_name ctx n s
  | Op.change_fee ctx f, s => change_fee ctx f s
  | Op.change_dev_address ctx a, s => change_dev_address ctx a s
  | Op.change_name_owner ctx n a, s => change_name_owner ctx n a s
  | Op.change_resolving_address ctx n a, s => change_resolving_address ctx n a s

/-- The host's atomic-commit semantics: a successful call commits its
successor state, a failing call leaves the state untouched. -/
def applyOp (op : Op) (s : State) : State :=
  match step op s with
  | NCResult.ok s₁ => s₁
  | NCResult.fail _ _ => s

/-- Run a sequence of calls. -/
def exec : List Op → State → State
  | [], s => s
  | op :: rest, s => exec rest (applyOp op s)

/-- Blank storage before the first `initialize` call. -/
def emptyState : State :=
  { domain := "", names := [], dev_address := 0, fee := 0, total_fee := 0 }

/-- The character class `[a-z0-9-]` of the specification, stated as ranges. -/
def specCharOk (c : Char) : Prop :=
  ('a' ≤ c ∧ c ≤ 'z') ∨ ('0' ≤ c ∧ c ≤ '9') ∨ c = '-'

instance (c : Char) : Decidable (specCharOk c) := by
  unfold specCharOk; infer_instance

/-- The specification's characterisation of a valid name: length between 3
and 32, every character in `[a-z0-9-]`, no leading or trailing hyphen. -/
def validate_name_spec (n : String) : Prop :=
  3 ≤ n.length ∧ n.length ≤ 32 ∧ (∀ c ∈ n.toList, specCharOk c) ∧
  n.toList.head? ≠ some '-' ∧ n.toList.getLast? ≠ some '-'

/-- Every key of the `names` mapping passes `validate_name`. -/
def NamesValid (s : State) : Prop :=
  ∀ p ∈ s.names, validate_name p.1 = true

/-- Whether a call is an `initialize` call. -/
def isInit : Op → Bool
  | Op.init _ _ _ => true
  | _ => false

/-- Whether a call is a `change_fee` call. -/
def isChangeFee : Op → Bool
  | Op.change_fee _ _ => true
  | _ => false

/-- Whether a call is a `create_name` call that succeeds on state `s`. -/
def isSuccessfulCreate (op : Op) (s : State) : Bool :=
  match op with
  | Op.create_name ctx name =>
      match create_name ctx name s with
      | NCResult.ok _ => true
      | NCResult.fail _ _ => false
  | _ => false

/-- Number of successful registrations along a sequence of calls. -/
def countSucc : List Op → State → Nat
  | [], _ => 0
  | op :: rest, s =>
      (if isSuccessfulCreate op s then 1 else 0) + countSucc rest (applyOp op s)

/-- A freshly initialized registry: domain `"htr"`, developer `1`, fee `100`. -/
def stInit : State :=
  { domain := "htr", names := [], dev_address := 1, fee := 100, total_fee := 0 }

/-- A registry in which `"abc"` is registered to owner `2`, resolving to `5`. -/
def stReg : State :=
  { domain := "htr"
    names := [("abc", { owner_address := 2, resolving_address := 5 })]
    dev_address := 1
    fee := 100
    total_fee := 100 }

/-- A deposit of 100 units of an ordinary token. -/
def actDep : NCAction :=
  { type := NCActionType.deposit, token_uid := [0], amount := 100 }

/-- A withdrawal carrying the reserved `b'00'` token marker. -/
def actWdr : NCAction :=
  { type := NCActionType.withdrawal, token_uid := NO_TOKEN, amount := 100 }

/-- A deposit carrying the reserved `b'00'` token marker. -/
def actMark : NCAction :=
  { type := NCActionType.deposit, token_uid := NO_TOKEN, amount := 100 }

/-- A call by address `2` with one ordinary deposit attached. -/
def ctxDep : Context := { address := 2, actions := [actDep], timestamp := 0 }

/-- A call by address `2` with one marker-token withdrawal attached. -/
def ctxWdr : Context := { address := 2, actions := [actWdr], timestamp := 0 }

/-- A call by address `2` with one marker-token deposit attached. -/
def ctxMark : Context := { address := 2, actions := [actMark], timestamp := 0 }

/-- A call by address `3` with no actions attached. -/
def ctxNoAct : Context := { address := 3, actions := [], timestamp := 0 }

/-- A call by the name owner `2` with no actions attached. -/
def ctxOwner : Context := { address := 2, actions := [], timestamp := 0 }

/-- A call by the developer `1` with no actions attached. -/
def ctxDev : Context := { address := 1, actions := [], timestamp := 0 }

/-! ## Lemmas about the dictionary operations -/

lemma dictGet_dictSet_self (m : List (String × NameRecord)) (k : String) (v : NameRecord) :
    dictGet (dictSet m k v) k = some v := by
  induction m with
  | nil => simp [dictSet, dictGet]
  | cons p rest ih =>
      obtain ⟨k', v'⟩ := p
      by_cases h : k' = k <;> simp [dictSet, dictGet, h, ih]

lemma dictGet_dictSet_ne (m : List (String × NameRecord)) (k : String) (v : NameRecord)
    (k' : String) (h : k' ≠ k) : dictGet (dictSet m k v) k' = dictGet m k' := by
  have hk : ¬ k = k' := fun hh => h hh.symm
  induction m with
  | nil => simp [dictSet, dictGet, hk]
  | cons p rest ih =>
      obtain ⟨k₀, v₀⟩ := p
      by_cases h0 : k₀ = k
      · subst h0
        simp [dictSet, dictGet, hk]
      · by_cases h1 : k₀ = k' <;> simp [dictSet, dictGet, h0, h1, h, hk, ih]

lemma mem_dictSet (m : List (String × NameRecord)) (k : String) (v : NameRecord)
    (q : String × NameRecord) (h : q ∈ dictSet m k v) : q = (k, v) ∨ q ∈ m := by
  induction m with
  | nil => simpa [dictSet] using h
  | cons p rest ih =>
      obtain ⟨k₀, v₀⟩ := p
      by_cases h0 : k₀ = k
      · simp only [dictSet, if_pos h0, List.mem_cons] at h
        rcases h with h | h
        · exact Or.inl h
        · exact Or.inr (List.mem_cons_of_mem _ h)
      · simp only [dictSet, if_neg h0, List.mem_cons] at h
        rcases h with h | h
        · exact Or.inr (by simp [h])
        · rcases ih h with h' | h'
          · exact Or.inl h'
          · exact Or.inr (List.mem_cons_of_mem _ h')

lemma dictGet_mem (m : List (String × NameRecord)) (k : String) (v : NameRecord)
    (h : dictGet m k = some v) : (k, v) ∈ m := by
  induction m with
  | nil => simp [dictGet] at h
  | cons p rest ih =>
      obtain ⟨k₀, v₀⟩ := p
      by_cases h0 : k₀ = k
      · subst h0
        simp [dictGet] at h
        simp [h]
      · simp only [dictGet, if_neg h0] at h
        exact List.mem_cons_of_mem _ (ih h)

/-! ## Lemmas about the name validator's character set -/

lemma specCharOk_of_mem : ∀ c ∈ allowedChars, specCharOk c := by decide

lemma mem_allowedChars_of_letter (c : Char) (h1 : 97 ≤ c.toNat) (h2 : c.toNat ≤ 122) :
    c ∈ allowedChars := by
  have hofn := Char.ofNat_toNat c
  set n := c.toNat with hn
  interval_cases n <;> (rw [← hofn]; decide)

lemma mem_allowedChars_of_digit (c : Char) (h1 : 48 ≤ c.toNat) (h2 : c.toNat ≤ 57) :
    c ∈ allowedChars := by
  have hofn := Char.ofNat_toNat c
  set n := c.toNat with hn
  interval_cases n <;> (rw [← hofn]; decide)

lemma allowedChars_iff (c : Char) : c ∈ allowedChars ↔ specCharOk c := by
  constructor
  · exact specCharOk_of_mem c
  · rintro (⟨h1, h2⟩ | ⟨h1, h2⟩ | rfl)
    · exact mem_allowedChars_of_letter c h1 h2
    · exact mem_allowedChars_of_digit c h1 h2
    · decide

lemma contains_allowedChars_iff (c : Char) : allowedChars.contains c = true ↔ c ∈ allowedChars := by
  simp [List.contains, List.elem_iff]

lemma validate_name_eq_true_iff (n : String) :
    validate_name n = true ↔
      ¬ n.length = 0 ∧ ¬ (n.length < 3 ∨ 32 < n.length) ∧
      (n.toList.all fun c => allowedChars.contains c) = true ∧
      ¬ (n.toList.head? = some '-' ∨ n.toList.getLast? = some '-') := by
  unfold validate_name
  repeat' split
  all_goals simp_all

/-- Shape of the successor state of a successful registration. -/
lemma create_name_ok (ctx : Context) (name : String) (s s₁ : State)
    (h : create_name ctx name s = NCResult.ok s₁) :
    s₁ = { s with
      names := dictSet s.names name
        { owner_address := ctx.address, resolving_address := ctx.address }
      total_fee := s.total_fee + s.fee } := by
  unfold create_name at h
  repeat' split at h
  all_goals first | (cases h; rfl) | simp_all

/-! ## The claims -/

/-- C2: `validate_name n` is true iff `3 ≤ len n ≤ 32`, every character of
`n` is in `[a-z0-9-]`, and `n` neither starts nor ends with a hyphen. -/
theorem claim_C2 (n : String) : validate_name n = true ↔ validate_name_spec n := by
  rw [validate_name_eq_true_iff]
  unfold validate_name_spec
  rw [List.all_eq_true]
  constructor
  · rintro ⟨h1, h2, h3, h4⟩
    push_neg at h2 h4
    refine ⟨by omega, by omega, ?_, h4.1, h4.2⟩
    intro c hc
    exact (allowedChars_iff c).mp ((contains_allowedChars_iff c).mp (h3 c hc))
  · rintro ⟨h1, h2, h3, h4, h5⟩
    refine ⟨by omega, by push_neg; omega, ?_, by push_neg; exact ⟨h4, h5⟩⟩
    intro c hc
    exact (contains_allowedChars_iff c).mpr ((allowedChars_iff c).mpr (h3 c hc))

/-- C1: with a valid unregistered name and an admitted action, `create_name`
succeeds when the amount covers the fee, inserting a record owned by and
resolving to the caller and raising `total_fee` by exactly `fee`; with an
amount strictly below the fee it fails `InsufficientBalance`. -/
theorem claim_C1 (ctx : Context) (name : String) (s : State) (a : NCAction)
    (hv : validate_name name = true) (hu : dictGet s.names name = none)
    (ha : _get_action ctx s = Except.ok a) :
    (s.fee ≤ a.amount →
      create_name ctx name s = NCResult.ok { s with
        names := dictSet s.names name
          { owner_address := ctx.address, resolving_address := ctx.address }
        total_fee := s.total_fee + s.fee }) ∧
    (a.amount < s.fee →
      create_name ctx name s = NCResult.fail NCErr.InsufficientBalance s) := by
  constructor
  · intro h
    simp [create_name, check_name_existence, hv, hu, ha, not_lt.mpr h]
  · intro h
    simp [create_name, check_name_existence, hv, hu, ha, h]

/-- Witness for C1 at a concrete registration. -/
theorem claim_C1_witness :
    create_name ctxDep "abc" stInit = NCResult.ok { stInit with
      names := dictSet stInit.names "abc"
        { owner_address := ctxDep.address, resolving_address := ctxDep.address }
      total_fee := stInit.total_fee + stInit.fee } ∧
    create_name ctxDep "abc" { stInit with fee := 101 } =
      NCResult.fail NCErr.InsufficientBalance { stInit with fee := 101 } :=
  ⟨(claim_C1 ctxDep "abc" stInit actDep (by decide) rfl rfl).1 (by decide),
   (claim_C1 ctxDep "abc" { stInit with fee := 101 } actDep
      (by decide) rfl rfl).2 (by decide)⟩

/-- C3: a failing operation leaves the state exactly as it was: every raise
in every public mutation happens before the first write. -/
theorem claim_C3 (op : Op) (s : State) (e : NCErr) (s' : State)
    (h : step op s = NCResult.fail e s') : s' = s := by
  cases op <;>
    simp only [step, init, create_name, check_name_existence, change_fee,
      change_dev_address, change_name_owner, change_resolving_address] at h <;>
    (repeat' split at h) <;>
    first | (cases h; rfl) | simp_all

/-- Witness for C3 at a concrete failing call. -/
theorem claim_C3_witness : stInit = stInit :=
  claim_C3 (Op.change_fee ctxDep 50) stInit NCErr.NotAuthorized stInit (by decide)

/-- Counterexample to C4 as stated: a withdrawal by a non-developer whose
single action carries the reserved marker fails `WithdrawalNotAllowed`, not
`InvalidToken`, because the withdrawal check runs first. -/
theorem claim_C4_counterexample :
    validate_name "abc" = true ∧
    dictGet stInit.names "abc" = none ∧
    ctxWdr.actions = [actWdr] ∧
    actWdr.token_uid = NO_TOKEN ∧
    create_name ctxWdr "abc" stInit = NCResult.fail NCErr.WithdrawalNotAllowed stInit ∧
    NCErr.WithdrawalNotAllowed ≠ NCErr.InvalidToken := by
  refine ⟨by decide, rfl, rfl, rfl, ?_, by decide⟩
  rfl

/-- C4 (amended): with a valid unregistered name and a single attached
action that is not a forbidden withdrawal, `create_name` fails
`InvalidToken` exactly when the action's token identifier equals the
reserved marker; with a different token identifier it is never rejected
with `InvalidToken`. -/
theorem claim_C4 (ctx : Context) (a : NCAction) (name : String) (s : State)
    (hv : validate_name name = true) (hu : dictGet s.names name = none)
    (hone : ctx.actions = [a])
    (hw : ¬ (ctx.address ≠ s.dev_address ∧ a.type = NCActionType.withdrawal)) :
    (a.token_uid = NO_TOKEN →
      create_name ctx name s = NCResult.fail NCErr.InvalidToken s) ∧
    (a.token_uid ≠ NO_TOKEN →
      ∀ s', create_name ctx name s ≠ NCResult.fail NCErr.InvalidToken s') := by
  constructor
  · intro ht
    have hga : _get_action ctx s = Except.error NCErr.InvalidToken := by
      simp [_get_action, hone, hw, ht]
    simp [create_name, check_name_existence, hv, hu, hga]
  · intro ht s'
    have hga : _get_action ctx s = Except.ok a := by
      simp [_get_action, hone, hw, ht]
    by_cases hlt : a.amount < s.fee <;>
      simp [create_name, check_name_existence, hv, hu, hga, hlt]

/-- Witness for the amended C4 at a concrete marker-token deposit. -/
theorem claim_C4_witness :
    create_name ctxMark "abc" stInit = NCResult.fail NCErr.InvalidToken stInit :=
  (claim_C4 ctxMark actMark "abc" stInit (by decide) rfl rfl (by decide)).1 rfl

/-- C5: with a valid unregistered name, `create_name` fails `TooManyActions`
unless exactly one action is attached, and fails `WithdrawalNotAllowed` when
the single action is a withdrawal and the caller is not the developer. -/
theorem claim_C5 (ctx : Context) (name : String) (s : State)
    (hv : validate_name name = true) (hu : dictGet s.names name = none) :
    (ctx.actions.length ≠ 1 →
      create_name ctx name s = NCResult.fail NCErr.TooManyActions s) ∧
    (∀ a, ctx.actions = [a] → a.type = NCActionType.withdrawal →
      ctx.address ≠ s.dev_address →
      create_name ctx name s = NCResult.fail NCErr.WithdrawalNotAllowed s) := by
  constructor
  · intro hn
    have hga : _get_action ctx s = Except.error NCErr.TooManyActions := by
      cases hctx : ctx.actions with
      | nil => simp [_get_action, hctx]
      | cons a rest =>
          cases rest with
          | nil => rw [hctx] at hn; simp at hn
          | cons b rest' => simp [_get_action, hctx]
    simp [create_name, check_name_existence, hv, hu, hga]
  · intro a hone hty hdev
    have hga : _get_action ctx s = Except.error NCErr.WithdrawalNotAllowed := by
      simp [_get_action, hone, hty, hdev]
    simp [create_name, check_name_existence, hv, hu, hga]

/-- Witness for C5 at a concrete zero-action call and a concrete withdrawal. -/
theorem claim_C5_witness :
    create_name ctxNoAct "abc" stInit = NCResult.fail NCErr.TooManyActions stInit ∧
    create_name ctxWdr "abc" stInit = NCResult.fail NCErr.WithdrawalNotAllowed stInit :=
  ⟨(claim_C5 ctxNoAct "abc" stInit (by decide) rfl).1 (by decide),
   (claim_C5 ctxWdr "abc" stInit (by decide) rfl).2 actWdr rfl rfl (by decide)⟩

/-- C6: an owner-authorized `change_name_owner` sets the record's owner to
the supplied new owner (not the caller) and keeps the resolving address;
`change_resolving_address` sets the resolving address and keeps the owner;
both keep every other name's record and every scalar field. -/
theorem claim_C6 (ctx : Context) (name : String) (s : State) (record : NameRecord)
    (new_owner new_res : Address)
    (hrec : dictGet s.names name = some record)
    (hauth : record.owner_address = ctx.address) :
    (change_name_owner ctx name new_owner s =
        NCResult.ok { s with
          names := dictSet s.names name (NameRecord.mk new_owner record.resolving_address) } ∧
      dictGet (dictSet s.names name (NameRecord.mk new_owner record.resolving_address)) name =
        some (NameRecord.mk new_owner record.resolving_address) ∧
      (∀ n', n' ≠ name →
        dictGet (dictSet s.names name (NameRecord.mk new_owner record.resolving_address)) n' =
          dictGet s.names n')) ∧
    (change_resolving_address ctx name new_res s =
        NCResult.ok { s with
          names := dictSet s.names name (NameRecord.mk record.owner_address new_res) } ∧
      dictGet (dictSet s.names name (NameRecord.mk record.owner_address new_res)) name =
        some (NameRecord.mk record.owner_address new_res) ∧
      (∀ n', n' ≠ name →
        dictGet (dictSet s.names name (NameRecord.mk record.owner_address new_res)) n' =
          dictGet s.names n')) := by
  refine ⟨⟨?_, dictGet_dictSet_self _ _ _, fun n' hn => dictGet_dictSet_ne _ _ _ _ hn⟩,
          ⟨?_, dictGet_dictSet_self _ _ _, fun n' hn => dictGet_dictSet_ne _ _ _ _ hn⟩⟩
  · unfold change_name_owner
    rw [hrec]
    simp [hauth, _update_owner_address]
  · unfold change_resolving_address
    rw [hrec]
    simp [hauth, _update_resolving_address]

/-- Witness for C6 at a concrete owner-authorized update. -/
theorem claim_C6_witness :
    change_name_owner ctxOwner "abc" 7 stReg =
      NCResult.ok { stReg with
        names := dictSet stReg.names "abc" (NameRecord.mk 7 5) } ∧
    change_resolving_address ctxOwner "abc" 8 stReg =
      NCResult.ok { stReg with
        names := dictSet stReg.names "abc" (NameRecord.mk 2 8) } :=
  ⟨(claim_C6 ctxOwner "abc" stReg (NameRecord.mk 2 5) 7 8 rfl rfl).1.1,
   (claim_C6 ctxOwner "abc" stReg (NameRecord.mk 2 5) 7 8 rfl rfl).2.1⟩

/-- C7: `change_fee` and `change_dev_address` fail `NotAuthorized` for any
caller other than the developer; for the developer, `change_fee` requires a
strictly positive fee (`InvalidFee` otherwise) and `change_dev_address`
succeeds unconditionally. -/
theorem claim_C7 (ctx : Context) (fee : Amount) (new_dev : Address) (s : State) :
    (ctx.address ≠ s.dev_address →
      change_fee ctx fee s = NCResult.fail NCErr.NotAuthorized s ∧
      change_dev_address ctx new_dev s = NCResult.fail NCErr.NotAuthorized s) ∧
    (ctx.address = s.dev_address →
      (fee ≤ 0 → change_fee ctx fee s = NCResult.fail NCErr.InvalidFee s) ∧
      (0 < fee → change_fee ctx fee s = NCResult.ok { s with fee := fee }) ∧
      change_dev_address ctx new_dev s = NCResult.ok { s with dev_address := new_dev }) := by
  constructor
  · intro h
    exact ⟨by simp [change_fee, h], by simp [change_dev_address, h]⟩
  · intro h
    exact ⟨fun hf => by simp [change_fee, h, hf],
           fun hf => by simp [change_fee, h, not_le.mpr hf],
           by simp [change_dev_address, h]⟩

/-- Witness for C7 at concrete developer and non-developer calls. -/
theorem claim_C7_witness :
    change_fee ctxDep 50 stInit = NCResult.fail NCErr.NotAuthorized stInit ∧
    change_fee { address := 1, actions := [], timestamp := 0 } 50 stInit =
      NCResult.ok { stInit with fee := 50 } :=
  ⟨((claim_C7 ctxDep 50 9 stInit).1 (by decide)).1,
   ((claim_C7 { address := 1, actions := [], timestamp := 0 } 50 9 stInit).2 rfl).2.1
     (by decide)⟩

/-- C10: `initialize` has no re-initialization guard: on any state it
succeeds whenever the domain is non-empty and the fee positive, overwriting
`domain` and `fee`, resetting `total_fee`, setting `dev_address` to the
caller, and leaving the `names` mapping intact. -/
theorem claim_C10 (ctx : Context) (domain : String) (fee : Amount) (s : State)
    (hd : domain.length ≠ 0) (hf : 0 < fee) :
    init ctx domain fee s = NCResult.ok { s with
      domain := domain, fee := fee, total_fee := 0, dev_address := ctx.address } ∧
    ({ s with
      domain := domain, fee := fee, total_fee := 0, dev_address := ctx.address } : State).names =
      s.names := by
  exact ⟨by simp [init, hd, not_le.mpr hf], rfl⟩

/-- Witness for C10: re-initializing a registry that already holds a name
keeps the name and resets the accumulator. -/
theorem claim_C10_witness :
    init ctxDep "new" 7 stReg = NCResult.ok { stReg with
      domain := "new", fee := 7, total_fee := 0, dev_address := ctxDep.address } ∧
    ({ stReg with
      domain := "new", fee := 7, total_fee := 0, dev_address := ctxDep.address } : State).names =
      stReg.names :=
  claim_C10 ctxDep "new" 7 stReg (by decide) (by decide)

/-- A successful registration implies the name passed the validator. -/
lemma create_name_ok_valid (ctx : Context) (name : String) (s s₁ : State)
    (h : create_name ctx name s = NCResult.ok s₁) : validate_name name = true := by
  unfold create_name at h
  repeat' split at h
  all_goals simp_all

/-- Shape of the successor state of a successful `initialize`. -/
lemma init_ok (ctx : Context) (d : String) (f : Amount) (s s₁ : State)
    (h : init ctx d f s = NCResult.ok s₁) :
    s₁ = { s with domain := d, fee := f, total_fee := 0, dev_address := ctx.address } := by
  unfold init at h
  repeat' split at h
  all_goals first | (cases h; rfl) | simp_all

/-- Shape of the successor state of a successful `change_fee`. -/
lemma change_fee_ok (ctx : Context) (f : Amount) (s s₁ : State)
    (h : change_fee ctx f s = NCResult.ok s₁) : s₁ = { s with fee := f } := by
  unfold change_fee at h
  repeat' split at h
  all_goals first | (cases h; rfl) | simp_all

/-- Shape of the successor state of a successful `change_dev_address`. -/
lemma change_dev_address_ok (ctx : Context) (a : Address) (s s₁ : State)
    (h : change_dev_address ctx a s = NCResult.ok s₁) :
    s₁ = { s with dev_address := a } := by
  unfold change_dev_address at h
  repeat' split at h
  all_goals first | (cases h; rfl) | simp_all

/-- Shape of the successor state of a successful `change_name_owner`. -/
lemma change_name_owner_ok (ctx : Context) (n : String) (a : Address) (s s₁ : State)
    (h : change_name_owner ctx n a s = NCResult.ok s₁) :
    ∃ record, dictGet s.names n = some record ∧
      s₁ = { s with names := dictSet s.names n (_update_owner_address record a) } := by
  unfold change_name_owner at h
  repeat' split at h
  all_goals simp_all

/-- Shape of the successor state of a successful `change_resolving_address`. -/
lemma change_resolving_address_ok (ctx : Context) (n : String) (a : Address) (s s₁ : State)
    (h : change_resolving_address ctx n a s = NCResult.ok s₁) :
    ∃ record, dictGet s.names n = some record ∧
      s₁ = { s with names := dictSet s.names n (_update_resolving_address record a) } := by
  unfold change_resolving_address at h
  repeat' split at h
  all_goals simp_all

/-- A successful call only ever inserts validated keys into `names`. -/
lemma namesValid_step_ok (op : Op) (s s₁ : State) (h : step op s = NCResult.ok s₁)
    (hv : NamesValid s) : NamesValid s₁ := by
  cases op with
  | create_name ctx n =>
      simp only [step] at h
      have hval := create_name_ok_valid ctx n s s₁ h
      have hs := create_name_ok ctx n s s₁ h
      subst hs
      intro p hp
      rcases mem_dictSet _ _ _ _ hp with rfl | hm
      · exact hval
      · exact hv p hm
  | change_name_owner ctx n a =>
      simp only [step] at h
      obtain ⟨record, hg, hs⟩ := change_name_owner_ok ctx n a s s₁ h
      subst hs
      intro p hp
      rcases mem_dictSet _ _ _ _ hp with rfl | hm
      · exact hv (n, record) (dictGet_mem s.names n record hg)
      · exact hv p hm
  | change_resolving_address ctx n a =>
      simp only [step] at h
      obtain ⟨record, hg, hs⟩ := change_resolving_address_ok ctx n a s s₁ h
      subst hs
      intro p hp
      rcases mem_dictSet _ _ _ _ hp with rfl | hm
      · exact hv (n, record) (dictGet_mem s.names n record hg)
      · exact hv p hm
  | init ctx d f =>
      simp only [step] at h
      have hs := init_ok ctx d f s s₁ h
      subst hs
      exact fun p hp => hv p hp
  | change_fee ctx f =>
      simp only [step] at h
      have hs := change_fee_ok ctx f s s₁ h
      subst hs
      exact fun p hp => hv p hp
  | change_dev_address ctx a =>
      simp only [step] at h
      have hs := change_dev_address_ok ctx a s s₁ h
      subst hs
      exact fun p hp => hv p hp

/-- Each call, committed atomically, preserves validity of all keys. -/
lemma namesValid_applyOp (op : Op) (s : State) (hv : NamesValid s) :
    NamesValid (applyOp op s) := by
  unfold applyOp
  cases hstep : step op s with
  | ok s₁ => exact namesValid_step_ok op s s₁ hstep hv
  | fail e s₁ => exact hv

lemma namesValid_exec (ops : List Op) : ∀ s : State, NamesValid s → NamesValid (exec ops s) := by
  induction ops with
  | nil => intro s hv; exact hv
  | cons op rest ih => intro s hv; exact ih (applyOp op s) (namesValid_applyOp op s hv)

/-- C8: in every state reachable from an initialized registry by any
sequence of public calls, every key of `names` satisfies `validate_name`. -/
theorem claim_C8 (ctx : Context) (d : String) (f : Amount) (s₀ : State)
    (h : init ctx d f emptyState = NCResult.ok s₀) (ops : List Op) :
    NamesValid (exec ops s₀) := by
  have h₀ : NamesValid s₀ := by
    have hs := init_ok ctx d f emptyState s₀ h
    subst hs
    intro p hp
    simp [emptyState] at hp
  exact namesValid_exec ops s₀ h₀

/-- Witness for C8: an initialization followed by one registration. -/
theorem claim_C8_witness : NamesValid (exec [Op.create_name ctxDep "abc"] stInit) :=
  claim_C8 ctxDev "htr" 100 stInit (by decide) [Op.create_name ctxDep "abc"]

/-- Calls other than `initialize` and `change_fee` do not change `fee`. -/
lemma fee_applyOp (op : Op) (s : State) (h1 : isInit op = false)
    (h2 : isChangeFee op = false) : (applyOp op s).fee = s.fee := by
  unfold applyOp
  cases hc : step op s with
  | fail e s₁ => rfl
  | ok s₁ =>
      cases op with
      | init ctx d f => simp [isInit] at h1
      | change_fee ctx f => simp [isChangeFee] at h2
      | create_name ctx n =>
          simp only [step] at hc
          rw [create_name_ok ctx n s s₁ hc]
      | change_dev_address ctx a =>
          simp only [step] at hc
          rw [change_dev_address_ok ctx a s s₁ hc]
      | change_name_owner ctx n a =>
          simp only [step] at hc
          obtain ⟨record, hg, hs⟩ := change_name_owner_ok ctx n a s s₁ hc
          rw [hs]
      | change_resolving_address ctx n a =>
          simp only [step] at hc
          obtain ⟨record, hg, hs⟩ := change_resolving_address_ok ctx n a s s₁ hc
          rw [hs]

/-- Effect of one call (neither `initialize` nor `change_fee`) on `total_fee`:
unchanged, except that a successful registration adds exactly `fee`. -/
lemma total_fee_applyOp (op : Op) (s : State) (h1 : isInit op = false)
    (h2 : isChangeFee op = false) :
    (applyOp op s).total_fee = s.total_fee + (if isSuccessfulCreate op s then s.fee else 0) := by
  cases op with
  | init ctx d f => simp [isInit] at h1
  | change_fee ctx f => simp [isChangeFee] at h2
  | create_name ctx n =>
      cases hc : create_name ctx n s with
      | fail e s₁ => simp [applyOp, step, isSuccessfulCreate, hc]
      | ok s₁ =>
          have hs := create_name_ok ctx n s s₁ hc
          subst hs
          simp [applyOp, step, isSuccessfulCreate, hc]
  | change_dev_address ctx a =>
      unfold applyOp
      cases hc : step (Op.change_dev_address ctx a) s with
      | fail e s₁ => simp [isSuccessfulCreate]
      | ok s₁ =>
          simp only [step] at hc
          have hs := change_dev_address_ok ctx a s s₁ hc
          subst hs
          simp [isSuccessfulCreate]
  | change_name_owner ctx n a =>
      unfold applyOp
      cases hc : step (Op.change_name_owner ctx n a) s with
      | fail e s₁ => simp [isSuccessfulCreate]
      | ok s₁ =>
          simp only [step] at hc
          obtain ⟨record, hg, hs⟩ := change_name_owner_ok ctx n a s s₁ hc
          subst hs
          simp [isSuccessfulCreate]
  | change_resolving_address ctx n a =>
      unfold applyOp
      cases hc : step (Op.change_resolving_address ctx n a) s with
      | fail e s₁ => simp [isSuccessfulCreate]
      | ok s₁ =>
          simp only [step] at hc
          obtain ⟨record, hg, hs⟩ := change_resolving_address_ok ctx n a s s₁ hc
          subst hs
          simp [isSuccessfulCreate]

/-- Any call other than `initialize` leaves `total_fee` no smaller. -/
lemma total_fee_mono (op : Op) (s : State) (h1 : isInit op = false) (hf : 0 ≤ s.fee) :
    s.total_fee ≤ (applyOp op s).total_fee := by
  cases op with
  | init ctx d f => simp [isInit] at h1
  | create_name ctx n =>
      have ht := total_fee_applyOp (Op.create_name ctx n) s rfl rfl
      rw [ht]
      by_cases hc : isSuccessfulCreate (Op.create_name ctx n) s = true
      · rw [if_pos hc]
        exact le_add_of_nonneg_right hf
      · rw [if_neg hc]
        simp
  | change_fee ctx f =>
      unfold applyOp
      cases hc : step (Op.change_fee ctx f) s with
      | fail e s₁ => simp
      | ok s₁ =>
          simp only [step] at hc
          have hs := change_fee_ok ctx f s s₁ hc
          subst hs
          simp
  | change_dev_address ctx a =>
      unfold applyOp
      cases hc : step (Op.change_dev_address ctx a) s with
      | fail e s₁ => simp
      | ok s₁ =>
          simp only [step] at hc
          have hs := change_dev_address_ok ctx a s s₁ hc
          subst hs
          simp
  | change_name_owner ctx n a =>
      unfold applyOp
      cases hc : step (Op.change_name_owner ctx n a) s with
      | fail e s₁ => simp
      | ok s₁ =>
          simp only [step] at hc
          obtain ⟨record, hg, hs⟩ := change_name_owner_ok ctx n a s s₁ hc
          subst hs
          simp
  | change_resolving_address ctx n a =>
      unfold applyOp
      cases hc : step (Op.change_resolving_address ctx n a) s with
      | fail e s₁ => simp
      | ok s₁ =>
          simp only [step] at hc
          obtain ⟨record, hg, hs⟩ := change_resolving_address_ok ctx n a s s₁ hc
          subst hs
          simp

/-- Accumulated fees along a sequence without `initialize` or `change_fee`. -/
lemma exec_total_fee (ops : List Op) :
    ∀ s : State, (∀ op ∈ ops, isInit op = false ∧ isChangeFee op = false) →
      (exec ops s).total_fee = s.total_fee + (countSucc ops s : Int) * s.fee ∧
      (exec ops s).fee = s.fee := by
  induction ops with
  | nil =>
      intro s h
      simp [exec, countSucc]
  | cons op rest ih =>
      intro s h
      have hop := h op (List.mem_cons_self op rest)
      have hrest : ∀ o ∈ rest, isInit o = false ∧ isChangeFee o = false :=
        fun o ho => h o (List.mem_cons_of_mem op ho)
      have hfee := fee_applyOp op s hop.1 hop.2
      have htot := total_fee_applyOp op s hop.1 hop.2
      obtain ⟨ih1, ih2⟩ := ih (applyOp op s) hrest
      constructor
      · simp only [exec, countSucc]
        rw [ih1, htot, hfee]
        by_cases hc : isSuccessfulCreate op s = true
        · simp only [hc, if_true]
          push_cast
          ring
        · simp only [hc, if_false]
          simp
      · simp only [exec]
        rw [ih2, hfee]

/-- Counterexample to C9 as stated: a successful registration followed by a
re-initialization with the same fee.  The sequence contains one successful
registration, never calls `change_fee`, and keeps `fee = 100` at every
point, yet `total_fee` ends at `0` instead of `1 * 100`, and it strictly
decreases across the second call. -/
theorem claim_C9_counterexample :
    countSucc [Op.create_name ctxDep "abc", Op.init ctxNoAct "htr" 100] stInit = 1 ∧
    isChangeFee (Op.create_name ctxDep "abc") = false ∧
    isChangeFee (Op.init ctxNoAct "htr" 100) = false ∧
    stInit.fee = 100 ∧
    (applyOp (Op.create_name ctxDep "abc") stInit).fee = 100 ∧
    (exec [Op.create_name ctxDep "abc", Op.init ctxNoAct "htr" 100] stInit).fee = 100 ∧
    stInit.total_fee = 0 ∧
    (exec [Op.create_name ctxDep "abc", Op.init ctxNoAct "htr" 100] stInit).total_fee = 0 ∧
    (1 : Int) * 100 ≠ 0 ∧
    (applyOp (Op.create_name ctxDep "abc") stInit).total_fee = 100 ∧
    ¬ ((applyOp (Op.create_name ctxDep "abc") stInit).total_fee ≤
        (exec [Op.create_name ctxDep "abc", Op.init ctxNoAct "htr" 100] stInit).total_fee) := by
  decide

/-- C9 (amended): over any sequence of calls that contains no `initialize`
and no `change_fee`, starting with `total_fee = 0`, the final `total_fee`
is the number of successful registrations times the (constant) fee; and
`total_fee` never decreases across any call other than `initialize`. -/
theorem claim_C9 :
    (∀ (ops : List Op) (s : State),
      (∀ op ∈ ops, isInit op = false ∧ isChangeFee op = false) →
      s.total_fee = 0 →
      (exec ops s).total_fee = (countSucc ops s : Int) * s.fee) ∧
    (∀ (op : Op) (s : State), isInit op = false → 0 ≤ s.fee →
      s.total_fee ≤ (applyOp op s).total_fee) := by
  constructor
  · intro ops s h h0
    have hh := (exec_total_fee ops s h).1
    rw [hh, h0, zero_add]
  · intro op s h1 hf
    exact total_fee_mono op s h1 hf

/-- Witness for the amended C9 at a concrete one-registration sequence. -/
theorem claim_C9_witness :
    (exec [Op.create_name ctxDep "abc"] stInit).total_fee =
      (countSucc [Op.create_name ctxDep "abc"] stInit : Int) * stInit.fee ∧
    stInit.total_fee ≤ (applyOp (Op.create_name ctxDep "abc") stInit).total_fee :=
  ⟨claim_C9.1 [Op.create_name ctxDep "abc"] stInit (by decide) rfl,
   claim_C9.2 (Op.create_name ctxDep "abc") stInit rfl (by decide)⟩

end ThothNamer
